import Mathlib

/-!
Verification of the face-recognition attendance pipeline
(`backend/face_recognition_engine.py`, `backend/main.py`, `backend/database.py`,
`backend/config.py`).

The numeric code is embedded shallowly: NumPy float vectors become `List ℚ`
(exact arithmetic idealizes IEEE floats; every operation the scorer performs
is an exact field operation), the raw model output of the embedding extractor
becomes `List (List ℝ)` (the L2 norm needs a square root), images become
dimension data plus opaque pixel functions, and the OpenCV cascade detector
becomes an oracle parameter mapping a detection-parameter record to the list
of candidate rectangles it reports.
-/

/-! ## SimilarityScorer: `cosine_similarity` and `compare_embeddings`
    (`backend/face_recognition_engine.py`, lines 25-43 and 284-317) -/

/-- `np.clip(x, lo, hi)`: clamp `x` into the interval `[lo, hi]`. -/
def np_clip (x lo hi : ℚ) : ℚ := min hi (max lo x)

/-- `np.dot` on two 1-D vectors of equal length: the sum of pairwise products.
    (On mismatched lengths NumPy raises; callers model that separately.) -/
def dotp : List ℚ → List ℚ → ℚ
  | a :: as, b :: bs => a * b + dotp as bs
  | _, _ => 0

/-- `cosine_similarity(embedding1, embedding2)` (engine lines 25-43):
    `np.dot` of the two vectors clipped to `[-1, 1]`.  `np.dot` raises a
    `ValueError` on mismatched 1-D shapes, so the result is `Except`:
    the error case models the exception escaping this helper. -/
def cosine_similarity (embedding1 embedding2 : List ℚ) : Except String ℚ :=
  if embedding1.length = embedding2.length then
    .ok (np_clip (dotp embedding1 embedding2) (-1) 1)
  else
    .error "shapes not aligned"

/-- `FaceRecognitionEngine.compare_embeddings` (engine lines 284-317):
    maps the clipped cosine similarity from `[-1, 1]` to `[0, 1]` via
    `(s + 1) / 2`, clips again to `[0, 1]`, and returns `0.0` if anything
    inside the `try` block raised. -/
def compare_embeddings (embedding1 embedding2 : List ℚ) : ℚ :=
  match cosine_similarity embedding1 embedding2 with
  | .ok s => np_clip ((s + 1) / 2) 0 1
  | .error _ => 0

lemma np_clip_mem (x lo hi : ℚ) (h : lo ≤ hi) :
    lo ≤ np_clip x lo hi ∧ np_clip x lo hi ≤ hi := by
  constructor
  · exact le_min h (le_trans (le_max_left lo x) (le_refl _))
  · exact min_le_left hi _

lemma np_clip_of_mem (x lo hi : ℚ) (h1 : lo ≤ x) (h2 : x ≤ hi) :
    np_clip x lo hi = x := by
  unfold np_clip
  rw [max_eq_right h1, min_eq_right h2]

lemma dotp_map_neg (a b : List ℚ) : dotp a (b.map fun x => -x) = -dotp a b := by
  induction a generalizing b with
  | nil => cases b <;> simp [dotp]
  | cons x as ih =>
    cases b with
    | nil => simp [dotp]
    | cons y bs => simp [dotp, ih bs]; ring

lemma compare_embeddings_eq (a b : List ℚ) (hab : a.length = b.length) :
    compare_embeddings a b = (np_clip (dotp a b) (-1) 1 + 1) / 2 := by
  have hc : cosine_similarity a b = .ok (np_clip (dotp a b) (-1) 1) := by
    unfold cosine_similarity
    rw [if_pos hab]
  unfold compare_embeddings
  rw [hc]
  have hmem := np_clip_mem (dotp a b) (-1) 1 (by norm_num)
  apply np_clip_of_mem
  · linarith [hmem.1]
  · linarith [hmem.2]

lemma compare_embeddings_bounds (a b : List ℚ) :
    0 ≤ compare_embeddings a b ∧ compare_embeddings a b ≤ 1 := by
  unfold compare_embeddings
  cases hc : cosine_similarity a b with
  | ok s => exact np_clip_mem _ 0 1 (by norm_num)
  | error e => norm_num

/-- Claim C1: for L2-unit-normalized embeddings the similarity score equals
    the raw dot product clipped to `[-1, 1]` mapped through `(s + 1) / 2`,
    lies in `[0, 1]`, equals `1` on identical unit vectors, `1/2` on
    orthogonal vectors, and `0` on opposite unit vectors. -/
theorem compare_embeddings_score_spec (a b : List ℚ) (hab : a.length = b.length) :
    compare_embeddings a b = (np_clip (dotp a b) (-1) 1 + 1) / 2
    ∧ 0 ≤ compare_embeddings a b
    ∧ compare_embeddings a b ≤ 1
    ∧ (dotp a a = 1 → compare_embeddings a a = 1)
    ∧ (dotp a b = 0 → compare_embeddings a b = 1 / 2)
    ∧ (dotp a a = 1 → compare_embeddings a (a.map fun x => -x) = 0) := by
  refine ⟨compare_embeddings_eq a b hab, (compare_embeddings_bounds a b).1,
    (compare_embeddings_bounds a b).2, ?_, ?_, ?_⟩
  · intro h1
    rw [compare_embeddings_eq a a rfl, h1, np_clip_of_mem 1 (-1) 1 (by norm_num) le_rfl]
    norm_num
  · intro h0
    rw [compare_embeddings_eq a b hab, h0, np_clip_of_mem 0 (-1) 1 (by norm_num) (by norm_num)]
    norm_num
  · intro h1
    have hlen : a.length = (a.map fun x => -x).length := by simp
    rw [compare_embeddings_eq a _ hlen, dotp_map_neg, h1,
      np_clip_of_mem (-1) (-1) 1 le_rfl (by norm_num)]
    norm_num

/-- Witness for C1 at `a = [3/5, 4/5]`, `b = [4/5, -3/5]`
    (orthogonal unit vectors). -/
theorem compare_embeddings_score_spec_witness :
    compare_embeddings [(3 : ℚ)/5, 4/5] [(4 : ℚ)/5, -3/5] = 1 / 2
    ∧ compare_embeddings [(3 : ℚ)/5, 4/5] [(3 : ℚ)/5, 4/5] = 1
    ∧ compare_embeddings [(3 : ℚ)/5, 4/5] (([(3 : ℚ)/5, 4/5]).map fun x => -x) = 0 := by
  have h := compare_embeddings_score_spec [(3 : ℚ)/5, 4/5] [(4 : ℚ)/5, -3/5] rfl
  refine ⟨h.2.2.2.2.1 ?_, h.2.2.2.1 ?_, h.2.2.2.2.2 ?_⟩
  · norm_num [dotp]
  · norm_num [dotp]
  · norm_num [dotp]

/-- Claim C9: `compare_embeddings` is total over all inputs and always
    returns a value in `[0, 1]` — on every pair of embeddings, matched or
    not — and on an internal error (mismatched embedding dimensions make
    `np.dot` raise inside the `try`) it returns `0.0` instead of
    propagating the failure. -/
theorem compare_embeddings_total (a b : List ℚ) :
    0 ≤ compare_embeddings a b
    ∧ compare_embeddings a b ≤ 1
    ∧ (a.length ≠ b.length → compare_embeddings a b = 0) := by
  refine ⟨(compare_embeddings_bounds a b).1, (compare_embeddings_bounds a b).2, ?_⟩
  intro hne
  unfold compare_embeddings cosine_similarity
  rw [if_neg hne]

/-- Witness for C9 at the mismatched pair `[1, 0]` and `[1]`. -/
theorem compare_embeddings_total_witness :
    (0 : ℚ) ≤ compare_embeddings [(1 : ℚ), 0] [(1 : ℚ)]
    ∧ compare_embeddings [(1 : ℚ), 0] [(1 : ℚ)] ≤ 1
    ∧ compare_embeddings [(1 : ℚ), 0] [(1 : ℚ)] = 0 :=
  ⟨(compare_embeddings_total [(1 : ℚ), 0] [(1 : ℚ)]).1,
   (compare_embeddings_total [(1 : ℚ), 0] [(1 : ℚ)]).2.1,
   (compare_embeddings_total [(1 : ℚ), 0] [(1 : ℚ)]).2.2 (by decide)⟩

/-! ## AttendancePolicy: the daily-cap check inside `recognize_face`
    (`backend/main.py`, lines 340-375) and the count query
    (`backend/database.py`, lines 151-172); `max_attendance_per_day`
    defaults to 2 (`backend/config.py`, lines 17-18). -/

/-- Outcome of the cap check `if attendance_count >= settings.max_attendance_per_day`. -/
inductive AttendanceDecision
  | record
  | capExceeded
deriving DecidableEq

/-- The pure daily-cap decision in `recognize_face` (main.py line 342). -/
def attendance_decide (todaysCount maxPerDay : ℕ) : AttendanceDecision :=
  if maxPerDay ≤ todaysCount then .capExceeded else .record

/-- The cap branch of `recognize_face` (main.py lines 340-375): on
    `capExceeded` no record is inserted and `attendance_count_today` is
    reported unchanged; otherwise a record is inserted and
    `attendance_count_today` is reported as `count + 1`.
    Result: (was a record inserted?, reported count for today). -/
def recognize_mark_attendance (todaysCount maxPerDay : ℕ) : Bool × ℕ :=
  match attendance_decide todaysCount maxPerDay with
  | .capExceeded => (false, todaysCount)
  | .record => (true, todaysCount + 1)

/-- `Database.get_attendance_count_today` (database.py lines 151-172):
    the length of the rows the query returned, or `0` when the query
    raised (the `except` branch). -/
def get_attendance_count_today (result : Except String (List String)) : ℕ :=
  match result with
  | .ok rows => rows.length
  | .error _ => 0

/-- Claim C3: the attendance decision is `capExceeded` (no record created)
    exactly when `todaysCount >= maxPerDay`, otherwise `record`; with
    `maxPerDay = 2` the count sequence 0, 1, 2 yields `record`, `record`,
    `capExceeded`, the reported count advancing by one on each record. -/
theorem attendance_decide_cap_spec (todaysCount maxPerDay : ℕ) :
    (attendance_decide todaysCount maxPerDay = .capExceeded ↔ maxPerDay ≤ todaysCount)
    ∧ (attendance_decide todaysCount maxPerDay = .record ↔ todaysCount < maxPerDay)
    ∧ ((recognize_mark_attendance todaysCount maxPerDay).1 = false ↔ maxPerDay ≤ todaysCount)
    ∧ recognize_mark_attendance 0 2 = (true, 1)
    ∧ recognize_mark_attendance 1 2 = (true, 2)
    ∧ recognize_mark_attendance 2 2 = (false, 2) := by
  refine ⟨?_, ?_, ?_, by decide, by decide, by decide⟩
  · unfold attendance_decide
    split_ifs with h <;> simp [h]
  · unfold attendance_decide
    split_ifs with h <;> simp <;> omega
  · unfold recognize_mark_attendance attendance_decide
    split_ifs with h <;> simp [h]

/-- Claim C10: when the today's-count query fails, the count is reported as
    0, the cap check passes whatever the true number of rows already
    recorded today, a record is inserted, and the day's record count can
    exceed `maxPerDay`. -/
theorem count_failure_bypasses_cap (msg : String) (todaysRows : List String)
    (maxPerDay : ℕ) (hmax : 0 < maxPerDay) (hfull : maxPerDay ≤ todaysRows.length) :
    get_attendance_count_today (.error msg) = 0
    ∧ (recognize_mark_attendance (get_attendance_count_today (.error msg)) maxPerDay).1 = true
    ∧ maxPerDay < todaysRows.length + 1 := by
  have h0 : get_attendance_count_today (.error msg) = 0 := rfl
  refine ⟨h0, ?_, Nat.lt_succ_of_le hfull⟩
  rw [h0]
  unfold recognize_mark_attendance attendance_decide
  rw [if_neg (by omega)]

/-- Witness for C10: query failure with two rows already recorded today and
    a cap of two still inserts a third record. -/
theorem count_failure_bypasses_cap_witness :
    get_attendance_count_today (.error "connection reset") = 0
    ∧ (recognize_mark_attendance
        (get_attendance_count_today (.error "connection reset")) 2).1 = true
    ∧ 2 < (["r1", "r2"] : List String).length + 1 :=
  count_failure_bypasses_cap "connection reset" ["r1", "r2"] 2 (by decide) (by decide)

/-! ## IdentityResolver: the `/identify` endpoint's linear scan
    (`backend/main.py`, lines 439-501). -/

/-- One enrolled row returned by `database.get_all_face_embeddings()`. -/
structure FaceData where
  user_id : String
  name : String
  embedding : List ℚ
deriving DecidableEq

/-- The `for face_data in all_faces` loop of `identify_face`
    (main.py lines 448-457): starting from `best_match = None`,
    `best_confidence = 0.0`, each candidate's score is computed and the
    running best is replaced only on a strictly greater score. -/
def scanFaces (probe : List ℚ) :
    List FaceData → Option FaceData × ℚ → Option FaceData × ℚ
  | [], acc => acc
  | fd :: rest, (best, bestc) =>
      scanFaces probe rest
        (if bestc < compare_embeddings probe fd.embedding
         then (some fd, compare_embeddings probe fd.embedding)
         else (best, bestc))

/-- The three response shapes of the `/identify` endpoint. -/
inductive IdentifyResult
  | noneEnrolled
  | identified (face : FaceData) (similarity : ℚ)
  | noMatch (bestConfidence : ℚ)
deriving DecidableEq

/-- The `/identify` endpoint (main.py lines 439-501) after the embedding of
    the probe image has been extracted: empty enrolled set short-circuits;
    otherwise the loop result is accepted when a best match exists and its
    confidence reaches the threshold, else the no-match response carries the
    best confidence seen. -/
def identify_face (probe : List ℚ) (allFaces : List FaceData) (threshold : ℚ) :
    IdentifyResult :=
  match allFaces with
  | [] => .noneEnrolled
  | _ :: _ =>
    match scanFaces probe allFaces (none, 0) with
    | (some fd, bestc) =>
        if threshold ≤ bestc then .identified fd bestc else .noMatch bestc
    | (none, bestc) => .noMatch bestc

lemma le_foldl_max_init (l : List ℚ) (a : ℚ) : a ≤ l.foldl max a := by
  induction l generalizing a with
  | nil => exact le_refl a
  | cons b l ih => exact le_trans (le_max_left a b) (ih (max a b))

lemma mem_le_foldl_max (l : List ℚ) (a b : ℚ) (hb : b ∈ l) : b ≤ l.foldl max a := by
  induction l generalizing a with
  | nil => cases hb
  | cons c l ih =>
    rcases List.mem_cons.mp hb with h | h
    · subst h
      exact le_trans (le_max_right a b) (le_foldl_max_init l (max a b))
    · exact ih (max a c) h


lemma scanFaces_eq (probe : List ℚ) (faces : List FaceData)
    (best : Option FaceData) (bestc : ℚ) :
    scanFaces probe faces (best, bestc) =
      (if bestc < (faces.map fun x => compare_embeddings probe x.embedding).foldl max bestc
       then faces.find? fun x =>
         decide (compare_embeddings probe x.embedding
           = (faces.map fun y => compare_embeddings probe y.embedding).foldl max bestc)
       else best,
       (faces.map fun x => compare_embeddings probe x.embedding).foldl max bestc) := by
  induction faces generalizing best bestc with
  | nil => simp [scanFaces]
  | cons fd rest ih =>
    simp only [scanFaces, List.map_cons, List.foldl_cons]
    rcases lt_or_le bestc (compare_embeddings probe fd.embedding) with h1 | h1
    · rw [if_pos h1, ih]
      simp only [max_eq_right h1.le]
      have hcM := le_foldl_max_init
        (rest.map fun x => compare_embeddings probe x.embedding)
        (compare_embeddings probe fd.embedding)
      rcases eq_or_lt_of_le hcM with hc | hc
      · rw [if_neg (by rw [← hc]; exact lt_irrefl _), if_pos (by rw [← hc]; exact h1),
          List.find?_cons_of_pos _ (by simp [← hc])]
      · rw [if_pos hc, if_pos (lt_trans h1 hc),
          List.find?_cons_of_neg _ (by simp only [decide_eq_true_eq]; exact ne_of_lt hc)]
    · rw [if_neg (not_lt.mpr h1), ih]
      simp only [max_eq_left h1]
      by_cases h2 :
        bestc < (rest.map fun x => compare_embeddings probe x.embedding).foldl max bestc
      · rw [if_pos h2, if_pos h2,
          List.find?_cons_of_neg _ (by
            simp only [decide_eq_true_eq]
            exact ne_of_lt (lt_of_le_of_lt h1 h2))]
      · rw [if_neg h2, if_neg h2]

lemma identify_face_noMatch (probe : List ℚ) (f : FaceData) (rest : List FaceData)
    (t : ℚ) (hlt : (scanFaces probe (f :: rest) (none, 0)).2 < t) :
    identify_face probe (f :: rest) t
      = .noMatch (scanFaces probe (f :: rest) (none, 0)).2 := by
  rcases hsc : scanFaces probe (f :: rest) (none, 0) with ⟨bestO, bestc⟩
  cases bestO with
  | none =>
    have h : identify_face probe (f :: rest) t = IdentifyResult.noMatch bestc := by
      unfold identify_face
      rw [hsc]
    rw [h]
  | some fd =>
    have h : identify_face probe (f :: rest) t
        = if t ≤ bestc then IdentifyResult.identified fd bestc
          else IdentifyResult.noMatch bestc := by
      unfold identify_face
      rw [hsc]
    have hlt' : bestc < t := by rw [hsc] at hlt; exact hlt
    rw [h, if_neg (not_le.mpr hlt')]

/-- Example probe for C2 (a unit vector). -/
def exProbe : List ℚ := [1, 0]

/-- First example candidate (similarity 3/10 against `exProbe`). -/
def exCandidate1 : FaceData := ⟨"u1", "c1", [-2/5, 0]⟩

/-- Second example candidate (similarity 9/10 against `exProbe`). -/
def exCandidate2 : FaceData := ⟨"u2", "c2", [4/5, 3/5]⟩

/-- Third example candidate (similarity 9/10 against `exProbe`, tied with
    the second). -/
def exCandidate3 : FaceData := ⟨"u3", "c3", [4/5, -3/5]⟩

/-- Claim C2: the identify scan computes every candidate's score (its best
    confidence is the running maximum over the whole list), replaces the
    best only on strictly greater scores so the first candidate attaining
    the maximum wins ties, returns `noMatch` carrying the best score when
    it is below the threshold, and on candidates scoring 3/10, 9/10, 9/10
    with threshold 4/5 it returns the second candidate. -/
theorem identify_face_spec :
    (∀ (probe : List ℚ) (faces : List FaceData) (threshold : ℚ), faces ≠ [] →
      (scanFaces probe faces (none, 0)).2
          = (faces.map fun x => compare_embeddings probe x.embedding).foldl max 0
      ∧ (∀ fd ∈ faces,
          compare_embeddings probe fd.embedding ≤ (scanFaces probe faces (none, 0)).2)
      ∧ (0 < (scanFaces probe faces (none, 0)).2 →
          (scanFaces probe faces (none, 0)).1
            = faces.find? fun x => decide (compare_embeddings probe x.embedding
                = (scanFaces probe faces (none, 0)).2))
      ∧ ((scanFaces probe faces (none, 0)).2 < threshold →
          identify_face probe faces threshold
            = .noMatch (scanFaces probe faces (none, 0)).2))
    ∧ identify_face exProbe [exCandidate1, exCandidate2, exCandidate3] (4/5)
        = .identified exCandidate2 (9/10) := by
  constructor
  · intro probe faces threshold hne
    have hs := scanFaces_eq probe faces none 0
    refine ⟨by simp only [hs], ?_, ?_, ?_⟩
    · intro fd hfd
      simp only [hs]
      exact mem_le_foldl_max _ 0 _ (List.mem_map_of_mem _ hfd)
    · intro hpos
      simp only [hs] at hpos ⊢
      rw [if_pos hpos]
    · intro hlt
      cases faces with
      | nil => exact absurd rfl hne
      | cons f rest => exact identify_face_noMatch probe f rest threshold hlt
  · have hemb1 : exCandidate1.embedding = [-2/5, 0] := rfl
    have hemb2 : exCandidate2.embedding = [4/5, 3/5] := rfl
    have hemb3 : exCandidate3.embedding = [4/5, -3/5] := rfl
    have e1 : compare_embeddings exProbe exCandidate1.embedding = 3/10 := by
      rw [hemb1, compare_embeddings_eq exProbe [-2/5, 0] rfl]
      norm_num [exProbe, dotp, np_clip, min_def, max_def]
    have e2 : compare_embeddings exProbe exCandidate2.embedding = 9/10 := by
      rw [hemb2, compare_embeddings_eq exProbe [4/5, 3/5] rfl]
      norm_num [exProbe, dotp, np_clip, min_def, max_def]
    have e3 : compare_embeddings exProbe exCandidate3.embedding = 9/10 := by
      rw [hemb3, compare_embeddings_eq exProbe [4/5, -3/5] rfl]
      norm_num [exProbe, dotp, np_clip, min_def, max_def]
    have t1 : scanFaces exProbe [exCandidate1, exCandidate2, exCandidate3]
        ((none : Option FaceData), (0 : ℚ))
        = scanFaces exProbe [exCandidate2, exCandidate3] (some exCandidate1, 3/10) := by
      have hstep : scanFaces exProbe [exCandidate1, exCandidate2, exCandidate3]
          ((none : Option FaceData), (0 : ℚ))
          = scanFaces exProbe [exCandidate2, exCandidate3]
              (if (0 : ℚ) < compare_embeddings exProbe exCandidate1.embedding
               then (some exCandidate1, compare_embeddings exProbe exCandidate1.embedding)
               else (none, 0)) := rfl
      rw [hstep]
      simp only [e1]
      rw [if_pos (by norm_num)]
    have t2 : scanFaces exProbe [exCandidate2, exCandidate3] (some exCandidate1, 3/10)
        = scanFaces exProbe [exCandidate3] (some exCandidate2, 9/10) := by
      have hstep : scanFaces exProbe [exCandidate2, exCandidate3] (some exCandidate1, 3/10)
          = scanFaces exProbe [exCandidate3]
              (if (3 : ℚ)/10 < compare_embeddings exProbe exCandidate2.embedding
               then (some exCandidate2, compare_embeddings exProbe exCandidate2.embedding)
               else (some exCandidate1, 3/10)) := rfl
      rw [hstep]
      simp only [e2]
      rw [if_pos (by norm_num)]
    have t3 : scanFaces exProbe [exCandidate3] (some exCandidate2, 9/10)
        = (some exCandidate2, 9/10) := by
      have hstep : scanFaces exProbe [exCandidate3] (some exCandidate2, 9/10)
          = scanFaces exProbe []
              (if (9 : ℚ)/10 < compare_embeddings exProbe exCandidate3.embedding
               then (some exCandidate3, compare_embeddings exProbe exCandidate3.embedding)
               else (some exCandidate2, 9/10)) := rfl
      rw [hstep]
      simp only [e3]
      rw [if_neg (by norm_num)]
      rfl
    have hfin : identify_face exProbe [exCandidate1, exCandidate2, exCandidate3] (4/5)
        = if (4 : ℚ)/5 ≤ 9/10 then IdentifyResult.identified exCandidate2 (9/10)
          else IdentifyResult.noMatch (9/10) := by
      unfold identify_face
      rw [t1, t2, t3]
    rw [hfin, if_pos (by norm_num)]

/-- Witness for C2: a single candidate scoring 3/10 against threshold 4/5
    yields `noMatch` carrying 3/10. -/
theorem identify_face_spec_witness :
    (([⟨"w1", "wc1", [-2/5, 0]⟩] : List FaceData) ≠ [])
    ∧ (scanFaces [(1 : ℚ), 0] [⟨"w1", "wc1", [-2/5, 0]⟩] (none, 0)).2 < 4/5
    ∧ identify_face [(1 : ℚ), 0] [⟨"w1", "wc1", [-2/5, 0]⟩] (4/5)
        = .noMatch (scanFaces [(1 : ℚ), 0] [⟨"w1", "wc1", [-2/5, 0]⟩] (none, 0)).2 := by
  have hv : compare_embeddings [(1 : ℚ), 0] (FaceData.mk "w1" "wc1" [-2/5, 0]).embedding
      = 3/10 := by
    rw [show (FaceData.mk "w1" "wc1" [-2/5, 0]).embedding = [-2/5, 0] from rfl,
      compare_embeddings_eq [(1 : ℚ), 0] [-2/5, 0] rfl]
    norm_num [dotp, np_clip, min_def, max_def]
  have hval : scanFaces [(1 : ℚ), 0] [⟨"w1", "wc1", [-2/5, 0]⟩]
      ((none : Option FaceData), (0 : ℚ))
      = (some ⟨"w1", "wc1", [-2/5, 0]⟩, 3/10) := by
    have hstep : scanFaces [(1 : ℚ), 0] [⟨"w1", "wc1", [-2/5, 0]⟩]
        ((none : Option FaceData), (0 : ℚ))
        = scanFaces [(1 : ℚ), 0] []
            (if (0 : ℚ) < compare_embeddings [(1 : ℚ), 0]
                  (FaceData.mk "w1" "wc1" [-2/5, 0]).embedding
             then (some ⟨"w1", "wc1", [-2/5, 0]⟩,
                   compare_embeddings [(1 : ℚ), 0]
                     (FaceData.mk "w1" "wc1" [-2/5, 0]).embedding)
             else (none, 0)) := rfl
    rw [hstep]
    simp only [hv]
    rw [if_pos (by norm_num)]
    rfl
  have h := (identify_face_spec.1 [(1 : ℚ), 0] [⟨"w1", "wc1", [-2/5, 0]⟩] (4/5)
    (by simp)).2.2.2
  refine ⟨by simp, ?_, h ?_⟩
  · rw [hval]; norm_num
  · rw [hval]; norm_num

/-! ## FaceDetector: `FaceRecognitionEngine.detect_and_align_face`
    (`backend/face_recognition_engine.py`, lines 319-394).

    The image enters only through its dimensions: the Haar-cascade call
    `detectMultiScale` is an oracle parameter mapping the parameter record
    of the call to the candidate rectangles reported on the (possibly
    downscaled) grayscale frame.  The code makes exactly one such call. -/

/-- Candidate rectangle `(x, y, w, h)` as reported by `detectMultiScale`. -/
structure Rect where
  x : ℕ
  y : ℕ
  w : ℕ
  h : ℕ
deriving DecidableEq

/-- Parameter record of one `detectMultiScale` call. -/
structure DetectParams where
  scaleFactor : ℚ
  minNeighbors : ℕ
  minSize : ℕ × ℕ
deriving DecidableEq

/-- The only parameter set the code ever passes (engine lines 356-361):
    `scaleFactor=1.1, minNeighbors=5, minSize=(30, 30)`. -/
def codeDetectParams : DetectParams := ⟨11/10, 5, (30, 30)⟩

/-- The primary parameter set the spec claims
    (scaleFactor 1.05, minNeighbors 4, minSize 20×20). -/
def specPrimaryParams : DetectParams := ⟨21/20, 4, (20, 20)⟩

/-- The permissive fallback parameter set the spec claims
    (scaleFactor 1.1, minNeighbors 3, minSize 15×15). -/
def specFallbackParams : DetectParams := ⟨11/10, 3, (15, 15)⟩

/-- Python's `max(faces, key=lambda rect: rect[2] * rect[3])` (engine line
    368): keep the first rectangle of maximal area. -/
def pickLargest : List Rect → Rect → Rect
  | [], best => best
  | f :: rest, best =>
      pickLargest rest (if best.w * best.h < f.w * f.h then f else best)

/-- Width of the frame handed to the detector: `int(width * 640.0/max_dim)`
    when the image is downscaled (engine lines 337-345), else `width`. -/
def smallWidth (height width : ℕ) : ℕ :=
  if 640 < max height width then width * 640 / max height width else width

/-- Height of the frame handed to the detector (engine lines 337-345). -/
def smallHeight (height width : ℕ) : ℕ :=
  if 640 < max height width then height * 640 / max height width else height

/-- Rescaling the winning rectangle back to original coordinates when the
    image was downscaled: `int(v / scale)` with `scale = 640.0/max_dim`,
    i.e. `v * max_dim / 640` rounded down (engine lines 371-375). -/
def rescaleRect (maxDim : ℕ) (r : Rect) : Rect :=
  if 640 < maxDim then
    ⟨r.x * maxDim / 640, r.y * maxDim / 640, r.w * maxDim / 640, r.h * maxDim / 640⟩
  else r

/-- `margin = int(max(w, h) * 0.1)` (engine line 378). -/
def marginOf (r : Rect) : ℕ := max r.w r.h / 10

/-- Margin expansion and clamping (engine lines 379-385): the final crop
    `image[y1:y2, x1:x2]` as a rectangle in original-image coordinates. -/
def expandClamp (height width : ℕ) (r : Rect) : Rect :=
  ⟨max 0 (r.x - marginOf r),
   max 0 (r.y - marginOf r),
   min width (r.x + r.w + marginOf r) - max 0 (r.x - marginOf r),
   min height (r.y + r.h + marginOf r) - max 0 (r.y - marginOf r)⟩

/-- `FaceRecognitionEngine.detect_and_align_face` (engine lines 319-394):
    one cascade call with `codeDetectParams`; `None` on zero candidates;
    otherwise the largest candidate is rescaled to original coordinates,
    expanded by the 10% margin and clamped to the image bounds. -/
def detect_and_align_face (cascade : DetectParams → List Rect)
    (height width : ℕ) : Option Rect :=
  match cascade codeDetectParams with
  | [] => none
  | f :: rest =>
      some (expandClamp height width
        (rescaleRect (max height width) (pickLargest rest f)))

/-- Documented contract of OpenCV's `detectMultiScale`: every reported
    rectangle respects `minSize` and lies inside the frame it was run on. -/
def CascadeContract (cascade : DetectParams → List Rect) (height width : ℕ) : Prop :=
  ∀ r ∈ cascade codeDetectParams,
    codeDetectParams.minSize.1 ≤ r.w ∧ codeDetectParams.minSize.2 ≤ r.h
    ∧ r.x + r.w ≤ smallWidth height width ∧ r.y + r.h ≤ smallHeight height width

lemma pickLargest_mem (faces : List Rect) (best : Rect) :
    pickLargest faces best ∈ best :: faces := by
  induction faces generalizing best with
  | nil => simp [pickLargest]
  | cons f rest ih =>
    simp only [pickLargest]
    by_cases hb : best.w * best.h < f.w * f.h
    · rw [if_pos hb]
      rcases List.mem_cons.mp (ih f) with h | h
      · rw [h]; exact List.mem_cons_of_mem _ (List.mem_cons_self _ _)
      · exact List.mem_cons_of_mem _ (List.mem_cons_of_mem _ h)
    · rw [if_neg hb]
      rcases List.mem_cons.mp (ih best) with h | h
      · rw [h]; exact List.mem_cons_self _ _
      · exact List.mem_cons_of_mem _ (List.mem_cons_of_mem _ h)

lemma le_scaled (a M : ℕ) (hM : 640 < M) : a ≤ a * M / 640 := by
  rw [Nat.le_div_iff_mul_le (by norm_num : (0 : ℕ) < 640)]
  exact Nat.mul_le_mul_left a (le_of_lt hM)

lemma scaled_sum_le (a b c M : ℕ) (hab : a + b ≤ c * 640 / M) :
    a * M / 640 + b * M / 640 ≤ c := by
  have h1 : a * M / 640 + b * M / 640 ≤ (a + b) * M / 640 := by
    rw [Nat.le_div_iff_mul_le (by norm_num : (0 : ℕ) < 640)]
    calc (a * M / 640 + b * M / 640) * 640
        = a * M / 640 * 640 + b * M / 640 * 640 := by ring
      _ ≤ a * M + b * M :=
          Nat.add_le_add (Nat.div_mul_le_self _ _) (Nat.div_mul_le_self _ _)
      _ = (a + b) * M := by ring
  have h2 : (a + b) * M / 640 ≤ (c * 640 / M) * M / 640 :=
    Nat.div_le_div_right (Nat.mul_le_mul_right M hab)
  have h3 : (c * 640 / M) * M / 640 ≤ c * 640 / 640 :=
    Nat.div_le_div_right (Nat.div_mul_le_self (c * 640) M)
  have h4 : c * 640 / 640 = c := Nat.mul_div_cancel c (by norm_num)
  omega

lemma rescaleRect_bounds (height width : ℕ) (r : Rect)
    (hw : 30 ≤ r.w) (hh : 30 ≤ r.h)
    (hx : r.x + r.w ≤ smallWidth height width)
    (hy : r.y + r.h ≤ smallHeight height width) :
    30 ≤ (rescaleRect (max height width) r).w
    ∧ 30 ≤ (rescaleRect (max height width) r).h
    ∧ (rescaleRect (max height width) r).x + (rescaleRect (max height width) r).w ≤ width
    ∧ (rescaleRect (max height width) r).y + (rescaleRect (max height width) r).h ≤ height := by
  by_cases hbig : 640 < max height width
  · rw [smallWidth, if_pos hbig] at hx
    rw [smallHeight, if_pos hbig] at hy
    rw [rescaleRect, if_pos hbig]
    exact ⟨le_trans hw (le_scaled r.w _ hbig), le_trans hh (le_scaled r.h _ hbig),
      scaled_sum_le r.x r.w width _ hx, scaled_sum_le r.y r.h height _ hy⟩
  · rw [smallWidth, if_neg hbig] at hx
    rw [smallHeight, if_neg hbig] at hy
    rw [rescaleRect, if_neg hbig]
    exact ⟨hw, hh, hx, hy⟩

lemma expandClamp_bounds (height width : ℕ) (r : Rect)
    (hxw : r.x + r.w ≤ width) (hyh : r.y + r.h ≤ height) :
    r.w ≤ (expandClamp height width r).w
    ∧ r.h ≤ (expandClamp height width r).h
    ∧ (expandClamp height width r).x + (expandClamp height width r).w ≤ width
    ∧ (expandClamp height width r).y + (expandClamp height width r).h ≤ height := by
  unfold expandClamp marginOf
  dsimp only
  refine ⟨?_, ?_, ?_, ?_⟩ <;> omega

lemma detect_bounds (cascade : DetectParams → List Rect) (height width : ℕ)
    (hc : CascadeContract cascade height width) (r : Rect)
    (hdet : detect_and_align_face cascade height width = some r) :
    30 ≤ r.w ∧ 30 ≤ r.h ∧ r.x + r.w ≤ width ∧ r.y + r.h ≤ height := by
  unfold detect_and_align_face at hdet
  cases hcas : cascade codeDetectParams with
  | nil => rw [hcas] at hdet; exact Option.noConfusion hdet
  | cons f rest =>
    rw [hcas] at hdet
    have hr : expandClamp height width
        (rescaleRect (max height width) (pickLargest rest f)) = r :=
      Option.some.inj hdet
    have hmem : pickLargest rest f ∈ cascade codeDetectParams := by
      rw [hcas]; exact pickLargest_mem rest f
    obtain ⟨hbw, hbh, hbx, hby⟩ := hc (pickLargest rest f) hmem
    have hres := rescaleRect_bounds height width (pickLargest rest f) hbw hbh hbx hby
    have hexp := expandClamp_bounds height width
      (rescaleRect (max height width) (pickLargest rest f)) hres.2.2.1 hres.2.2.2
    rw [hr] at hexp
    exact ⟨le_trans hres.1 hexp.1, le_trans hres.2.1 hexp.2.1, hexp.2.2.1, hexp.2.2.2⟩

/-- Claim C8: every region returned by `detect_and_align_face` satisfies the
    FaceRegion invariant after margin expansion and clamping: positive
    width and height and lying entirely within the original image, provided
    the cascade honors its documented contract (`minSize` respected,
    candidates inside the detection frame). -/
theorem detect_region_invariant (cascade : DetectParams → List Rect)
    (height width : ℕ) (r : Rect)
    (hc : CascadeContract cascade height width)
    (hdet : detect_and_align_face cascade height width = some r) :
    0 < r.w ∧ 0 < r.h ∧ r.x + r.w ≤ width ∧ r.y + r.h ≤ height := by
  obtain ⟨h1, h2, h3, h4⟩ := detect_bounds cascade height width hc r hdet
  exact ⟨by omega, by omega, h3, h4⟩

/-- Witness for C8: a 40×40 candidate at (10, 10) in a 100×100 image yields
    the region (6, 6, 48, 48). -/
theorem detect_region_invariant_witness :
    0 < (48 : ℕ) ∧ 0 < (48 : ℕ) ∧ 6 + 48 ≤ (100 : ℕ) ∧ 6 + 48 ≤ (100 : ℕ) := by
  have hc : CascadeContract (fun _ => [⟨10, 10, 40, 40⟩]) 100 100 := by
    intro rc hrc
    rw [List.mem_singleton] at hrc
    subst hrc
    exact ⟨by decide, by decide, by decide, by decide⟩
  have hdet : detect_and_align_face (fun _ => [⟨10, 10, 40, 40⟩]) 100 100
      = some ⟨6, 6, 48, 48⟩ := by decide
  exact detect_region_invariant (fun _ => [⟨10, 10, 40, 40⟩]) 100 100 ⟨6, 6, 48, 48⟩ hc hdet

/-- Claim C6: `detect_and_align_face` never returns a region whose width or
    height is below 20 pixels — a sub-20 final region would mean `NotFound`.
    There is no explicit 20-pixel check in the code: the property holds
    because `minSize=(30, 30)` bounds every candidate from below and
    rescaling, margin expansion and clamping can only grow the rectangle,
    so the antecedent "final region below 20 pixels" never occurs. -/
theorem detect_min_region_size (cascade : DetectParams → List Rect)
    (height width : ℕ) (r : Rect)
    (hc : CascadeContract cascade height width)
    (hdet : detect_and_align_face cascade height width = some r) :
    20 ≤ r.w ∧ 20 ≤ r.h := by
  obtain ⟨h1, h2, _, _⟩ := detect_bounds cascade height width hc r hdet
  exact ⟨by omega, by omega⟩

/-- Witness for C6: a 35×64 candidate at the origin of a 200×200 image
    yields the region (0, 0, 41, 70), both sides at least 20. -/
theorem detect_min_region_size_witness :
    20 ≤ (41 : ℕ) ∧ 20 ≤ (70 : ℕ) := by
  have hc : CascadeContract (fun _ => [⟨0, 0, 35, 64⟩]) 200 200 := by
    intro rc hrc
    rw [List.mem_singleton] at hrc
    subst hrc
    exact ⟨by decide, by decide, by decide, by decide⟩
  have hdet : detect_and_align_face (fun _ => [⟨0, 0, 35, 64⟩]) 200 200
      = some ⟨0, 0, 41, 70⟩ := by decide
  exact detect_min_region_size (fun _ => [⟨0, 0, 35, 64⟩]) 200 200 ⟨0, 0, 41, 70⟩ hc hdet

/-- Oracle refuting C5: the spec's primary and permissive parameter sets
    both yield a valid candidate, while the one parameter set the code
    actually uses yields none. -/
def cascadeCE : DetectParams → List Rect :=
  fun p => if p = codeDetectParams then [] else [⟨16, 16, 48, 48⟩]

/-- Counterexample to Claim C5: the claim says detection retries with the
    permissive parameter set (and at original resolution) and returns
    NotFound only after all attempts fail.  Here both spec-claimed attempts
    (primary 1.05/4/20×20 and fallback 1.1/3/15×15) would find a face, yet
    the code returns NotFound because its single call — made with
    scaleFactor 1.1, minNeighbors 5, minSize 30×30, parameters that match
    neither spec-claimed set — yields zero candidates. -/
theorem detect_no_retry_counterexample :
    cascadeCE specPrimaryParams = [⟨16, 16, 48, 48⟩]
    ∧ cascadeCE specFallbackParams = [⟨16, 16, 48, 48⟩]
    ∧ detect_and_align_face cascadeCE 100 100 = none := by
  have hp : specPrimaryParams ≠ codeDetectParams := by
    simp only [specPrimaryParams, codeDetectParams, ne_eq, DetectParams.mk.injEq]
    intro h
    exact absurd h.2.1 (by decide)
  have hf : specFallbackParams ≠ codeDetectParams := by
    simp only [specFallbackParams, codeDetectParams, ne_eq, DetectParams.mk.injEq]
    intro h
    exact absurd h.2.1 (by decide)
  refine ⟨?_, ?_, ?_⟩
  · unfold cascadeCE; rw [if_neg hp]
  · unfold cascadeCE; rw [if_neg hf]
  · unfold detect_and_align_face cascadeCE
    rw [if_pos rfl]

/-- Claim C5 (amended): `detect_and_align_face` performs a single cascade
    query, with scaleFactor 1.1, minNeighbors 5 and minSize 30×30, no
    contrast enhancement and no retry of any kind — its outcome depends
    only on that one call's candidate list, and it returns NotFound exactly
    when that single call yields zero candidates. -/
theorem detect_single_attempt (cascade cascade' : DetectParams → List Rect)
    (height width : ℕ)
    (hsame : cascade codeDetectParams = cascade' codeDetectParams) :
    (detect_and_align_face cascade height width = none
      ↔ cascade codeDetectParams = [])
    ∧ detect_and_align_face cascade height width
        = detect_and_align_face cascade' height width := by
  constructor
  · unfold detect_and_align_face
    cases hcas : cascade codeDetectParams with
    | nil => simp
    | cons f rest => simp
  · unfold detect_and_align_face
    rw [hsame]

/-- Witness for the amended C5 with two oracles agreeing on the code's
    parameter set. -/
theorem detect_single_attempt_witness :
    (detect_and_align_face (fun _ => [⟨10, 10, 40, 40⟩]) 100 100 = none
      ↔ (fun _ => [(⟨10, 10, 40, 40⟩ : Rect)]) codeDetectParams = [])
    ∧ detect_and_align_face (fun _ => [⟨10, 10, 40, 40⟩]) 100 100
        = detect_and_align_face
            (fun p => if p = p then [⟨10, 10, 40, 40⟩] else []) 100 100 :=
  detect_single_attempt (fun _ => [⟨10, 10, 40, 40⟩])
    (fun p => if p = p then [⟨10, 10, 40, 40⟩] else []) 100 100 (by simp)

/-! ## Preprocessor: `FaceRecognitionEngine._preprocess_image`
    (`backend/face_recognition_engine.py`, lines 189-230).

    A raster image is its dimensions plus a byte-valued pixel function
    `px y x c` (row, column, channel); the claims concern the numeric
    per-pixel mapping and the output layout, so `cv2.resize` enters as an
    oracle parameter on images. -/

/-- Height×width×3 8-bit raster image; `px y x c` is the byte at row `y`,
    column `x`, channel `c`. -/
structure RawImage where
  height : ℕ
  width : ℕ
  px : ℕ → ℕ → ℕ → ℕ

/-- `cv2.cvtColor(face_image, cv2.COLOR_BGR2RGB)` (engine line 208): swap
    channels 0 and 2.  The code applies it to every 3-channel input. -/
def cvtColor_BGR2RGB (img : RawImage) : RawImage :=
  { img with px := fun y x c => img.px y x (2 - c) }

/-- Batch-of-one, channel-first float tensor; `val n c y x` is the value at
    batch index `n`, channel `c`, row `y`, column `x`. -/
structure Tensor4 where
  batch : ℕ
  channels : ℕ
  height : ℕ
  width : ℕ
  val : ℕ → ℕ → ℕ → ℕ → ℚ

/-- The per-byte normalization of engine lines 216-221:
    `b * (1.0/255.0)` then `* 2.0 - 1.0`. -/
def normalizeByte (b : ℕ) : ℚ := (b : ℚ) * (1 / 255) * 2 - 1

/-- `FaceRecognitionEngine._preprocess_image` (engine lines 189-230):
    BGR→RGB channel swap, bilinear resize to the model input size (the
    oracle `resize`), byte scaling to `[0, 1]`, affine map to `[-1, 1]`,
    HWC→CHW transpose, and a prepended batch dimension. -/
def _preprocess_image (resize : RawImage → ℕ × ℕ → RawImage)
    (inputSize : ℕ × ℕ) (img : RawImage) : Tensor4 :=
  { batch := 1
    channels := 3
    height := inputSize.2
    width := inputSize.1
    val := fun _n c y x =>
      normalizeByte ((resize (cvtColor_BGR2RGB img) inputSize).px y x c) }

lemma normalizeByte_bounds (b : ℕ) (hb : b ≤ 255) :
    -1 ≤ normalizeByte b ∧ normalizeByte b ≤ 1 := by
  have hb' : (b : ℚ) ≤ 255 := by exact_mod_cast hb
  have h0 : (0 : ℚ) ≤ (b : ℚ) := Nat.cast_nonneg b
  unfold normalizeByte
  constructor <;> linarith

/-- Numeric and layout contract of `_preprocess_image` (supporting theorem
    for C7): the tensor is channel-first and batch-of-one, every value is
    `2 * (byte/255) - 1` of a resized pixel of the channel-swapped source,
    hence lies in `[-1, 1]` whenever the resized bytes are in range, and a
    solid mid-gray (128) input yields the constant tensor
    `2 * (128/255) - 1`. -/
theorem preprocess_image_spec (resize : RawImage → ℕ × ℕ → RawImage)
    (inputSize : ℕ × ℕ) (img : RawImage) :
    (_preprocess_image resize inputSize img).batch = 1
    ∧ (_preprocess_image resize inputSize img).channels = 3
    ∧ (∀ n c y x, (_preprocess_image resize inputSize img).val n c y x
        = normalizeByte ((resize (cvtColor_BGR2RGB img) inputSize).px y x c))
    ∧ ((∀ y x c, (resize (cvtColor_BGR2RGB img) inputSize).px y x c ≤ 255) →
        ∀ n c y x, -1 ≤ (_preprocess_image resize inputSize img).val n c y x
          ∧ (_preprocess_image resize inputSize img).val n c y x ≤ 1)
    ∧ ((∀ y x c, (resize (cvtColor_BGR2RGB img) inputSize).px y x c = 128) →
        ∀ n c y x, (_preprocess_image resize inputSize img).val n c y x
          = 2 * (128 / 255) - 1) := by
  refine ⟨rfl, rfl, fun n c y x => rfl, ?_, ?_⟩
  · intro hb n c y x
    exact normalizeByte_bounds _ (hb y x c)
  · intro hg n c y x
    have hv : (_preprocess_image resize inputSize img).val n c y x
        = normalizeByte ((resize (cvtColor_BGR2RGB img) inputSize).px y x c) := rfl
    rw [hv, hg y x c]
    norm_num [normalizeByte]

/-- Identity resize oracle for the C7 witness. -/
def resizeIdentity : RawImage → ℕ × ℕ → RawImage := fun img _ => img

/-- Solid mid-gray 112×112 image for the C7 witness. -/
def grayImage : RawImage := ⟨112, 112, fun _ _ _ => 128⟩

/-- Instance of `preprocess_image_spec` at the solid mid-gray 112×112
    image (exercising its two hypotheses). -/
theorem preprocess_image_spec_witness :
    (∀ y x c, (resizeIdentity (cvtColor_BGR2RGB grayImage) (112, 112)).px y x c = 128)
    ∧ (_preprocess_image resizeIdentity (112, 112) grayImage).batch = 1
    ∧ (_preprocess_image resizeIdentity (112, 112) grayImage).val 0 0 0 0
        = 2 * (128 / 255) - 1 := by
  have hg : ∀ y x c,
      (resizeIdentity (cvtColor_BGR2RGB grayImage) (112, 112)).px y x c = 128 :=
    fun _ _ _ => rfl
  have h := preprocess_image_spec resizeIdentity (112, 112) grayImage
  exact ⟨hg, h.1, h.2.2.2.2 hg 0 0 0 0⟩

/-- RGB test image for C7: every pixel has channel values (10, 20, 200) in
    RGB order (red 10, green 20, blue 200) — the channel order in which
    `detect_and_align_face` hands crops to the embedding path, since it
    converts them to RGB before returning (engine line 388). -/
def rgbTestImage : RawImage :=
  ⟨112, 112, fun _ _ c => if c = 0 then 10 else if c = 1 then 20 else 200⟩

/-- Claim C7 (code bug): the claim — like the code's own comments and
    docstrings (engine lines 204-208: the comment announces a BGR check
    and a conversion to RGB; `get_embedding` documents an RGB input) —
    requires RGB channel order to be ensured, converting only when the
    source is BGR.  The code instead applies the swap to every 3-channel
    input: the guard checks only the shape, never the channel order, while
    `detect_and_align_face` hands over an already-RGB crop.  Evaluating the
    code on an RGB pixel (10, 20, 200): channel 0 of the tensor carries the
    blue byte 200 and channel 2 the red byte 10 — BGR, not RGB, and the two
    values provably differ. -/
theorem preprocess_channel_swap_bug :
    rgbTestImage.px 0 0 0 = 10
    ∧ rgbTestImage.px 0 0 2 = 200
    ∧ (_preprocess_image resizeIdentity (112, 112) rgbTestImage).val 0 0 0 0
        = normalizeByte 200
    ∧ (_preprocess_image resizeIdentity (112, 112) rgbTestImage).val 0 2 0 0
        = normalizeByte 10
    ∧ normalizeByte 200 ≠ normalizeByte 10 := by
  refine ⟨rfl, rfl, rfl, rfl, ?_⟩
  norm_num [normalizeByte]

/-! ## EmbeddingExtractor: the tail of `FaceRecognitionEngine.get_embedding`
    (`backend/face_recognition_engine.py`, lines 262-278): flatten the first
    backend output, L2-normalize it, or return the zero vector when the norm
    is at most 1e-8.  The L2 norm needs a square root, so this part is
    embedded over `ℝ`. -/

/-- `np.linalg.norm(embedding)`: the Euclidean norm. -/
noncomputable def l2norm (v : List ℝ) : ℝ :=
  Real.sqrt ((v.map fun x => x * x).sum)

/-- Lines 262-278 of the engine: `outputs[0].flatten()`, then divide by the
    norm when `norm > 1e-8`, else `np.zeros_like(embedding)`. -/
noncomputable def get_embedding (outputs : List (List ℝ)) : List ℝ :=
  if 1 / 10 ^ 8 < l2norm outputs.flatten
  then outputs.flatten.map fun x => x / l2norm outputs.flatten
  else outputs.flatten.map fun _ => 0

lemma sumsq_nonneg (v : List ℝ) : 0 ≤ (v.map fun x => x * x).sum := by
  apply List.sum_nonneg
  intro x hx
  rcases List.mem_map.mp hx with ⟨y, _, hy⟩
  rw [← hy]
  exact mul_self_nonneg y

lemma sumsq_div (v : List ℝ) (n : ℝ) :
    ((v.map fun x => x / n).map fun x => x * x).sum
      = (v.map fun x => x * x).sum / (n * n) := by
  induction v with
  | nil => simp
  | cons x xs ih =>
    simp only [List.map_cons, List.sum_cons, ih, div_mul_div_comm, add_div]

lemma map_const_zero (l : List ℝ) :
    (l.map fun _ => (0 : ℝ)) = List.replicate l.length 0 := by
  induction l with
  | nil => rfl
  | cons x xs ih => simp [List.replicate_succ, ih]

/-- Claim C4: `get_embedding` flattens the raw output to one dimension and
    computes its L2 norm; when the norm exceeds 1e-8 it divides every
    element by it, producing a unit-length vector, and otherwise it returns
    the all-zero vector of the same dimension (it never divides by a
    near-zero norm and never raises — both branches are total). -/
theorem get_embedding_normalizes (outputs : List (List ℝ)) :
    (get_embedding outputs).length = outputs.flatten.length
    ∧ (1 / 10 ^ 8 < l2norm outputs.flatten → l2norm (get_embedding outputs) = 1)
    ∧ (¬ 1 / 10 ^ 8 < l2norm outputs.flatten →
        get_embedding outputs = List.replicate outputs.flatten.length 0) := by
  refine ⟨?_, ?_, ?_⟩
  · unfold get_embedding
    split_ifs <;> rw [List.length_map]
  · intro hn
    have hSnn : 0 ≤ (outputs.flatten.map fun x => x * x).sum := sumsq_nonneg _
    have hpos : 0 < l2norm outputs.flatten := lt_trans (by positivity) hn
    have hS : 0 < (outputs.flatten.map fun x => x * x).sum := by
      rcases lt_or_eq_of_le hSnn with h | h
      · exact h
      · exfalso
        have h0 : l2norm outputs.flatten = 0 := by
          unfold l2norm
          rw [← h, Real.sqrt_zero]
        rw [h0] at hpos
        exact lt_irrefl 0 hpos
    unfold get_embedding
    rw [if_pos hn]
    unfold l2norm
    rw [sumsq_div, Real.mul_self_sqrt hSnn, div_self (ne_of_gt hS), Real.sqrt_one]
  · intro hn
    unfold get_embedding
    rw [if_neg hn, map_const_zero]

/-- Witness for C4 at the raw output `[[3, 4]]`, whose norm is 5. -/
theorem get_embedding_normalizes_witness :
    (1 / 10 ^ 8 : ℝ) < l2norm ([[3, 4]] : List (List ℝ)).flatten
    ∧ l2norm (get_embedding [[3, 4]]) = 1 := by
  have h5 : l2norm ([[3, 4]] : List (List ℝ)).flatten = 5 := by
    have hflat : ([[3, 4]] : List (List ℝ)).flatten = [3, 4] := by simp
    rw [hflat]
    unfold l2norm
    have hsum : (([(3 : ℝ), 4]).map fun x => x * x).sum = 25 := by
      norm_num [List.map_cons, List.map_nil, List.sum_cons, List.sum_nil]
    rw [hsum, show (25 : ℝ) = 5 ^ 2 by norm_num, Real.sqrt_sq (by norm_num : (0 : ℝ) ≤ 5)]
  have hlt : (1 / 10 ^ 8 : ℝ) < l2norm ([[3, 4]] : List (List ℝ)).flatten := by
    rw [h5]; norm_num
  exact ⟨hlt, (get_embedding_normalizes [[3, 4]]).2.1 hlt⟩
